import Mathlib

/-!
Verification of the sticker-maker video compressor (src/sticker_maker.py).

Shallow embedding conventions:
* Python floats are modelled as exact rationals (`ℚ`); the literals `0.75`
  and `0.80` denote the exact rationals 3/4 and 4/5.
* Python `int(x)` truncation toward zero is `pyInt`.
* Python integers are `ℤ`, sizes in KB are `ℚ`.
* Fallible Python code (`ZeroDivisionError`, the caught-and-`sys.exit(1)`
  analysis failures) is modelled with `Except` / `Option`.
* The external encoder is an oracle `sizes : ℕ → ℚ` giving the measured
  output size (in KB) of each encode attempt, as the spec's "fake encoder
  that returns scripted sizes" suggests.
-/

/-- Python `int()` applied to a rational: truncation toward zero. -/
def pyInt (q : ℚ) : ℤ := if 0 ≤ q then ⌊q⌋ else ⌈q⌉

/-- Configuration constant `MAX_SIZE_KB = 256` (line 8). -/
def MAX_SIZE_KB : ℚ := 256

/-- Configuration constant `TARGET_DIMENSION = 512` (line 9). -/
def TARGET_DIMENSION : ℤ := 512

/-- Configuration constant `SAFE_BITRATE_FACTOR = 0.75` (line 10). -/
def SAFE_BITRATE_FACTOR : ℚ := 0.75

/-- Errors a run can abort with. `zeroDivision` models an uncaught Python
`ZeroDivisionError` (float division by zero). -/
inductive PyError where
  | zeroDivision
  deriving DecidableEq, Repr

/-- Parity fix-up from lines 71-72 of `calculate_target_details`:
`if new_width % 2 != 0: new_width -= 1` (Lean's `%` on `ℤ` agrees with
Python's `%` for the positive modulus 2). -/
def evenize (n : ℤ) : ℤ := if n % 2 ≠ 0 then n - 1 else n

/-- Tail of `calculate_target_details` (lines 70-86): parity fix-up of the
computed dimensions, then the bitrate computation
`bitrate_kbps = int(MAX_SIZE_KB*1024*8 * factor / duration / 1000)` with the
hard floor of 10, guarding the division by `duration` as Python does
(`ZeroDivisionError` when `duration == 0`). -/
def mkTargetResult (new_width new_height : ℤ) (duration factor : ℚ) :
    Except PyError (ℤ × ℤ × ℤ) :=
  let new_width := evenize new_width
  let new_height := evenize new_height
  let target_total_bits : ℚ := MAX_SIZE_KB * 1024 * 8
  let safe_bits : ℚ := target_total_bits * factor
  if duration = 0 then Except.error PyError.zeroDivision
  else
    let bitrate_bps : ℚ := safe_bits / duration
    let bitrate_kbps : ℤ := pyInt (bitrate_bps / 1000)
    let bitrate_kbps : ℤ := if bitrate_kbps < 10 then 10 else bitrate_kbps
    Except.ok (new_width, new_height, bitrate_kbps)

/-- `calculate_target_details` (lines 57-86). Returns
`(new_width, new_height, bitrate_kbps)`. The scaling divisions
`TARGET_DIMENSION / width` resp. `/ height` are guarded exactly where Python
would raise `ZeroDivisionError`. `current_bitrate_factor = none` models the
Python default argument `None`, replaced by `SAFE_BITRATE_FACTOR`. -/
def calculate_target_details (duration : ℚ) (width height : ℤ)
    (current_bitrate_factor : Option ℚ) : Except PyError (ℤ × ℤ × ℤ) :=
  let factor := current_bitrate_factor.getD SAFE_BITRATE_FACTOR
  if width > height then
    if width = 0 then Except.error PyError.zeroDivision
    else
      mkTargetResult TARGET_DIMENSION
        (pyInt (((TARGET_DIMENSION : ℚ) / (width : ℚ)) * (height : ℚ)))
        duration factor
  else
    if height = 0 then Except.error PyError.zeroDivision
    else
      mkTargetResult
        (pyInt (((TARGET_DIMENSION : ℚ) / (height : ℚ)) * (width : ℚ)))
        TARGET_DIMENSION duration factor

/-- One stream entry of the probed JSON: its `codec_type`, and its
`width` / `height` fields (`none` when the key is absent, in which case
Python raises `KeyError`, caught by the broad handler). -/
structure StreamInfo where
  codec_type : String
  width : Option ℤ
  height : Option ℤ
  deriving DecidableEq, Repr

/-- Probed data relevant to `get_video_info`: the container duration
(`none` when `data['format']` has no `'duration'` key) and the stream list. -/
structure ProbeData where
  duration : Option ℚ
  streams : List StreamInfo
  deriving DecidableEq, Repr

/-- `get_video_info` (lines 26-55), after JSON parsing. `none` models the
`except` branch: print the error and `sys.exit(1)`. A missing duration key
defaults to `0` (line 42: `data['format'].get('duration', 0)`); a missing
video stream raises (line 46-47); a missing `width`/`height` key raises
`KeyError` (lines 49-50), also caught. No positivity check is performed. -/
def get_video_info (data : ProbeData) : Option (ℚ × ℤ × ℤ) :=
  let duration : ℚ := data.duration.getD 0
  match data.streams.find? (fun s => s.codec_type == "video") with
  | none => none
  | some video_stream =>
    match video_stream.width, video_stream.height with
    | some w, some h => some (duration, w, h)
    | some _, none => none
    | none, _ => none

/-- Bitrate reduction of lines 162-163:
`current_bitrate = int(current_bitrate * 0.80)`, then
`if current_bitrate < 10: current_bitrate = 10`. -/
def reduce_bitrate (current_bitrate : ℤ) : ℤ :=
  let b := pyInt ((current_bitrate : ℚ) * 0.80)
  if b < 10 then 10 else b

/-- One attempt of the fit loop: its 1-based number, the bitrate it encoded
with, the measured output size in KB, and whether it met the budget. -/
structure AttemptResult where
  attemptNumber : ℕ
  bitrateKbps : ℤ
  outputSizeKB : ℚ
  succeeded : Bool
  deriving DecidableEq, Repr

/-- The `for attempt in range(max_attempts)` loop of lines 114-166, with
`remaining = max_attempts - attempt` as structural fuel. Each iteration
encodes at `current_bitrate`, measures `sizes attempt`, breaks on success
(line 158), reduces the bitrate when a retry is still available
(`attempt < max_attempts - 1`, i.e. `0 < remaining` after the decrement),
and otherwise stops with the oversize warning. -/
def fitLoopAux (sizes : ℕ → ℚ) :
    (remaining : ℕ) → (attempt : ℕ) → (current_bitrate : ℤ) → List AttemptResult
  | 0, _, _ => []
  | remaining + 1, attempt, current_bitrate =>
    let final_size := sizes attempt
    let r : AttemptResult :=
      ⟨attempt + 1, current_bitrate, final_size, decide (final_size ≤ MAX_SIZE_KB)⟩
    if final_size ≤ MAX_SIZE_KB then [r]
    else if 0 < remaining then
      r :: fitLoopAux sizes remaining (attempt + 1) (reduce_bitrate current_bitrate)
    else [r]

/-- The fit loop of `compress_video` with `max_attempts = 3` (line 111),
seeded with the initial bitrate: the list of attempt results it produces. -/
def fit_loop (sizes : ℕ → ℚ) (bitrate_k : ℤ) : List AttemptResult :=
  fitLoopAux sizes 3 0 bitrate_k

/-- Environment of one program run: which tools resolve, whether the input
file exists, the parsed probe output, and the encoder size oracle. -/
structure Env where
  ffmpeg_found : Bool
  ffprobe_found : Bool
  input_exists : Bool
  probe : ProbeData
  sizes : ℕ → ℚ

/-- How a run terminates: `exitFailure` is `sys.exit(1)` or an uncaught
exception (nonzero status); `earlyReturn` is a plain `return` out of
`main`/`compress_video` (the interpreter then exits with status 0);
`finished` is normal completion of the fit loop with its attempt list. -/
inductive RunOutcome where
  | exitFailure
  | earlyReturn
  | finished (attempts : List AttemptResult)
  deriving DecidableEq, Repr

/-- `compress_video` (lines 88-167) at the level of control flow: missing
ffprobe prints an error and returns (lines 95-98); analysis failure exits
with status 1 (inside `get_video_info`); a `ZeroDivisionError` escaping
`calculate_target_details` aborts with nonzero status; otherwise the fit
loop runs to completion. -/
def compress_video (e : Env) : RunOutcome :=
  if e.ffprobe_found = false then RunOutcome.earlyReturn
  else
    match get_video_info e.probe with
    | none => RunOutcome.exitFailure
    | some (duration, width, height) =>
      match calculate_target_details duration width height none with
      | Except.error _ => RunOutcome.exitFailure
      | Except.ok (_, _, bitrate_k) => RunOutcome.finished (fit_loop e.sizes bitrate_k)

/-- `main` (lines 169-191): missing ffmpeg exits with status 1
(lines 172-177); a non-existent input file prints an error and `return`s
(lines 187-189); otherwise `compress_video` runs. -/
def main_model (e : Env) : RunOutcome :=
  if e.ffmpeg_found = false then RunOutcome.exitFailure
  else if e.input_exists = false then RunOutcome.earlyReturn
  else compress_video e

/-- Process exit status of an outcome: 1 for `sys.exit(1)` / uncaught
exception, 0 for a plain return or normal completion. -/
def exit_code : RunOutcome → ℕ
  | RunOutcome.exitFailure => 1
  | RunOutcome.earlyReturn => 0
  | RunOutcome.finished _ => 0

/-- Whether the run printed the line-165 oversize warning: some attempt was
the third and still exceeded the budget. -/
def oversize_warning : RunOutcome → Bool
  | RunOutcome.finished rs => rs.any (fun r => r.attemptNumber == 3 && !r.succeeded)
  | _ => false

/-- Modelled from the spec (§4.2, step 2): the bitrate formula in the spec's
words, `floor(maxSizeKB×1024×8×safetyFactor / duration / 1000)` clamped up
to the floor, to be compared with the code's computation. -/
def specBitrateKbps (maxSizeKB safetyFactor duration : ℚ) (floorKbps : ℤ) : ℤ :=
  max floorKbps ⌊maxSizeKB * 1024 * 8 * safetyFactor / duration / 1000⌋

/-- Modelled from the spec (§8, reduction law): the claimed bitrate after
`k` consecutive oversize results, `floor(B × 0.80^k)` clamped to the
10 kbps floor, to be compared with the code's iterated reduction. -/
def specReducedBitrate (B : ℤ) (k : ℕ) : ℤ :=
  max 10 ⌊(B : ℚ) * (0.80 : ℚ) ^ k⌋

/-! ## Helper lemmas -/

lemma pyInt_of_nonneg {q : ℚ} (h : 0 ≤ q) : pyInt q = ⌊q⌋ := if_pos h

lemma evenize_emod_two (n : ℤ) : evenize n % 2 = 0 := by
  unfold evenize; split <;> omega

lemma evenize_le (n : ℤ) : evenize n ≤ n := by
  unfold evenize; split <;> omega

lemma evenize_nonneg {n : ℤ} (h : 0 ≤ n) : 0 ≤ evenize n := by
  unfold evenize; split <;> omega

lemma reduce_bitrate_ge_ten (b : ℤ) : 10 ≤ reduce_bitrate b := by
  unfold reduce_bitrate
  dsimp only
  split <;> omega

lemma iterate_reduce_ge_ten (b : ℤ) (hb : 10 ≤ b) (k : ℕ) :
    10 ≤ reduce_bitrate^[k] b := by
  induction k with
  | zero => simpa using hb
  | succ n _ =>
    rw [Function.iterate_succ_apply']
    exact reduce_bitrate_ge_ten _

lemma reduce_bitrate_eq_max (b : ℤ) (hb : 0 ≤ b) :
    reduce_bitrate b = max 10 ⌊(b : ℚ) * 0.80⌋ := by
  unfold reduce_bitrate
  have hq : (0 : ℚ) ≤ (b : ℚ) * 0.80 := by
    apply mul_nonneg _ (by norm_num)
    exact_mod_cast hb
  dsimp only
  rw [pyInt_of_nonneg hq]
  split
  · exact (max_eq_left (le_of_lt (by assumption))).symm
  · exact (max_eq_right (not_lt.mp (by assumption))).symm

/-- The bitrate part of `calculate_target_details` with the default safety
factor, isolated for statements about it. -/
def bitrate_of (d : ℚ) : ℤ :=
  let b := pyInt (MAX_SIZE_KB * 1024 * 8 * SAFE_BITRATE_FACTOR / d / 1000)
  if b < 10 then 10 else b

lemma calculate_eval_pos (d : ℚ) (w h : ℤ) (hd : d ≠ 0) (hw : w ≠ 0) (hh : h ≠ 0) :
    calculate_target_details d w h none =
      if w > h then
        Except.ok (TARGET_DIMENSION,
          evenize (pyInt (((TARGET_DIMENSION : ℚ) / (w : ℚ)) * (h : ℚ))), bitrate_of d)
      else
        Except.ok (evenize (pyInt (((TARGET_DIMENSION : ℚ) / (h : ℚ)) * (w : ℚ))),
          TARGET_DIMENSION, bitrate_of d) := by
  have h512 : evenize TARGET_DIMENSION = TARGET_DIMENSION := by
    unfold evenize TARGET_DIMENSION
    norm_num
  simp only [calculate_target_details, mkTargetResult, bitrate_of, Option.getD]
  split
  · rw [h512]
  · rw [h512]

lemma calc_ok_br_eq (d : ℚ) (w h nw nh br : ℤ)
    (hok : calculate_target_details d w h none = Except.ok (nw, nh, br)) :
    br = bitrate_of d := by
  unfold calculate_target_details mkTargetResult at hok
  unfold bitrate_of
  repeat' split at hok
  all_goals simp_all

lemma calc_ok_br_ge (d : ℚ) (w h nw nh br : ℤ)
    (hok : calculate_target_details d w h none = Except.ok (nw, nh, br)) :
    10 ≤ br := by
  have e := calc_ok_br_eq d w h nw nh br hok
  unfold bitrate_of at e
  subst e
  dsimp only
  split <;> omega

lemma bitrate_of_pos_eq (d : ℚ) (hd : 0 < d) :
    bitrate_of d = specBitrateKbps MAX_SIZE_KB SAFE_BITRATE_FACTOR d 10 := by
  unfold bitrate_of specBitrateKbps
  have harg : (0 : ℚ) ≤ MAX_SIZE_KB * 1024 * 8 * SAFE_BITRATE_FACTOR / d / 1000 := by
    unfold MAX_SIZE_KB SAFE_BITRATE_FACTOR
    positivity
  rw [pyInt_of_nonneg harg]
  dsimp only
  split
  · exact (max_eq_left (le_of_lt (by assumption))).symm
  · exact (max_eq_right (not_lt.mp (by assumption))).symm

lemma calc_eval_5s : calculate_target_details 5 1920 1080 none = Except.ok (512, 288, 314) := by
  rw [calculate_eval_pos 5 1920 1080 (by norm_num) (by norm_num) (by norm_num)]
  rw [if_pos (by norm_num)]
  unfold bitrate_of pyInt evenize
  norm_num [MAX_SIZE_KB, SAFE_BITRATE_FACTOR, TARGET_DIMENSION, Int.floor_eq_iff]

lemma calc_eval_10s : calculate_target_details 10 1920 1080 none = Except.ok (512, 288, 157) := by
  rw [calculate_eval_pos 10 1920 1080 (by norm_num) (by norm_num) (by norm_num)]
  rw [if_pos (by norm_num)]
  unfold bitrate_of pyInt evenize
  norm_num [MAX_SIZE_KB, SAFE_BITRATE_FACTOR, TARGET_DIMENSION, Int.floor_eq_iff]

lemma fitLoopAux_zero (sizes : ℕ → ℚ) (attempt : ℕ) (b : ℤ) :
    fitLoopAux sizes 0 attempt b = [] := rfl

lemma fitLoopAux_succ (sizes : ℕ → ℚ) (remaining attempt : ℕ) (b : ℤ) :
    fitLoopAux sizes (remaining + 1) attempt b =
      if sizes attempt ≤ MAX_SIZE_KB then
        [⟨attempt + 1, b, sizes attempt, decide (sizes attempt ≤ MAX_SIZE_KB)⟩]
      else if 0 < remaining then
        (⟨attempt + 1, b, sizes attempt, decide (sizes attempt ≤ MAX_SIZE_KB)⟩ :
            AttemptResult) ::
          fitLoopAux sizes remaining (attempt + 1) (reduce_bitrate b)
      else [⟨attempt + 1, b, sizes attempt, decide (sizes attempt ≤ MAX_SIZE_KB)⟩] := rfl

lemma fit_loop_eval (sizes : ℕ → ℚ) (B : ℤ) :
    fit_loop sizes B =
      if sizes 0 ≤ MAX_SIZE_KB then [⟨1, B, sizes 0, true⟩]
      else if sizes 1 ≤ MAX_SIZE_KB then
        [⟨1, B, sizes 0, false⟩, ⟨2, reduce_bitrate B, sizes 1, true⟩]
      else
        [⟨1, B, sizes 0, false⟩, ⟨2, reduce_bitrate B, sizes 1, false⟩,
          ⟨3, reduce_bitrate (reduce_bitrate B), sizes 2,
            decide (sizes 2 ≤ MAX_SIZE_KB)⟩] := by
  unfold fit_loop
  rw [show (3 : ℕ) = 2 + 1 from rfl, fitLoopAux_succ]
  by_cases h0 : sizes 0 ≤ MAX_SIZE_KB
  · simp [h0]
  · rw [if_neg h0, if_pos (by norm_num), if_neg h0]
    rw [show (2 : ℕ) = 1 + 1 from rfl, fitLoopAux_succ]
    by_cases h1 : sizes 1 ≤ MAX_SIZE_KB
    · simp [h0, h1]
    · rw [if_neg h1, if_pos (by norm_num), if_neg h1]
      rw [show (1 : ℕ) = 0 + 1 from rfl, fitLoopAux_succ]
      simp [h0, h1]

/-! ## Claims -/

/-- C3: for every positive duration and any inputs accepted by
`calculate_target_details`, the bitrate it computes — and the bitrate after
any number `k` of retry reductions — never falls below the 10 kbps floor. -/
theorem C3_bitrate_floor_invariant (d : ℚ) (hd : 0 < d) (w h nw nh br : ℤ)
    (hok : calculate_target_details d w h none = Except.ok (nw, nh, br)) (k : ℕ) :
    10 ≤ reduce_bitrate^[k] br :=
  iterate_reduce_ge_ten br (calc_ok_br_ge d w h nw nh br hok) k

/-- Witness for C3 at duration 5 s, 1920×1080, two reductions. -/
theorem C3_bitrate_floor_invariant_witness : 10 ≤ reduce_bitrate^[2] 314 :=
  C3_bitrate_floor_invariant 5 (by norm_num) 1920 1080 512 288 314 calc_eval_5s 2

/-- C4: for every positive duration the computed bitrate equals
`maxSizeKB×1024×8` bits times the safety factor, divided by the duration,
integer-divided by 1000 and clamped up to the 10 kbps floor; in particular
duration 5 s at 1920×1080 yields the initial bitrate 314 kbps (with
dimensions 512×288). -/
theorem C4_bitrate_formula (d : ℚ) (hd : 0 < d) (w h : ℤ) (hw : 0 < w) (hh : 0 < h) :
    (∃ nw nh, calculate_target_details d w h none =
        Except.ok (nw, nh, specBitrateKbps MAX_SIZE_KB SAFE_BITRATE_FACTOR d 10)) ∧
    calculate_target_details 5 1920 1080 none = Except.ok (512, 288, 314) := by
  refine ⟨?_, calc_eval_5s⟩
  have heval := calculate_eval_pos d w h hd.ne' hw.ne' hh.ne'
  rw [bitrate_of_pos_eq d hd] at heval
  by_cases hwh : w > h
  · rw [if_pos hwh] at heval
    exact ⟨_, _, heval⟩
  · rw [if_neg hwh] at heval
    exact ⟨_, _, heval⟩

/-- Witness for C4 at duration 5 s, 1920×1080. -/
theorem C4_bitrate_formula_witness :
    (∃ nw nh, calculate_target_details 5 1920 1080 none =
        Except.ok (nw, nh, specBitrateKbps MAX_SIZE_KB SAFE_BITRATE_FACTOR 5 10)) ∧
    calculate_target_details 5 1920 1080 none = Except.ok (512, 288, 314) :=
  C4_bitrate_formula 5 (by norm_num) 1920 1080 (by norm_num) (by norm_num)

/-- C6 counterexample: the bitrate floor value 10 is actually reached (a
200 s clip seeds the loop at exactly 10 kbps), and a reduction applied at
10 kbps leaves the bitrate unchanged — it is not strictly decreased. -/
theorem C6_counterexample_no_strict_decrease_at_floor :
    calculate_target_details 200 100 100 none = Except.ok (512, 512, 10) ∧
    reduce_bitrate 10 = 10 ∧ ¬ reduce_bitrate 10 < 10 := by
  have h2 : reduce_bitrate 10 = 10 := by
    unfold reduce_bitrate pyInt
    norm_num [Int.floor_eq_iff]
  refine ⟨?_, h2, by rw [h2]; norm_num⟩
  rw [calculate_eval_pos 200 100 100 (by norm_num) (by norm_num) (by norm_num)]
  rw [if_neg (by norm_num)]
  unfold bitrate_of pyInt evenize
  norm_num [MAX_SIZE_KB, SAFE_BITRATE_FACTOR, TARGET_DIMENSION, Int.floor_eq_iff]

/-- C6 amended: a reduction applied to a bitrate strictly above the floor
(≥ 11 kbps) strictly decreases it; only at the floor value 10 does the
re-clamp hold the bitrate constant. -/
theorem C6_amended_strict_decrease (b : ℤ) (hb : 11 ≤ b) : reduce_bitrate b < b := by
  unfold reduce_bitrate
  have hbq : (0 : ℚ) ≤ (b : ℚ) := by exact_mod_cast (by omega : (0 : ℤ) ≤ b)
  have hb0 : (0 : ℚ) ≤ (b : ℚ) * 0.80 := mul_nonneg hbq (by norm_num)
  have hfloor : ⌊(b : ℚ) * 0.80⌋ < b := by
    rw [Int.floor_lt]
    have hbq11 : (11 : ℚ) ≤ (b : ℚ) := by exact_mod_cast hb
    nlinarith
  dsimp only
  rw [pyInt_of_nonneg hb0]
  split
  · omega
  · exact hfloor

/-- Witness for C6 amended at bitrate 36. -/
theorem C6_amended_strict_decrease_witness : reduce_bitrate 36 < 36 :=
  C6_amended_strict_decrease 36 (by norm_num)

/-- C9: with everything else fixed, the computed bitrate is monotonically
non-increasing in the (positive) duration. -/
theorem C9_bitrate_antitone (d1 d2 : ℚ) (hd1 : 0 < d1) (hle : d1 ≤ d2)
    (w h nw1 nh1 b1 nw2 nh2 b2 : ℤ)
    (h1 : calculate_target_details d1 w h none = Except.ok (nw1, nh1, b1))
    (h2 : calculate_target_details d2 w h none = Except.ok (nw2, nh2, b2)) :
    b2 ≤ b1 := by
  have hd2 : 0 < d2 := lt_of_lt_of_le hd1 hle
  rw [calc_ok_br_eq d1 w h nw1 nh1 b1 h1, calc_ok_br_eq d2 w h nw2 nh2 b2 h2,
    bitrate_of_pos_eq d1 hd1, bitrate_of_pos_eq d2 hd2]
  unfold specBitrateKbps
  have hdiv : MAX_SIZE_KB * 1024 * 8 * SAFE_BITRATE_FACTOR / d2 / 1000 ≤
      MAX_SIZE_KB * 1024 * 8 * SAFE_BITRATE_FACTOR / d1 / 1000 := by
    have hnum : (0 : ℚ) ≤ MAX_SIZE_KB * 1024 * 8 * SAFE_BITRATE_FACTOR := by
      unfold MAX_SIZE_KB SAFE_BITRATE_FACTOR
      norm_num
    gcongr
  exact max_le_max le_rfl (Int.floor_le_floor hdiv)

/-- Witness for C9: durations 5 s and 10 s give bitrates 314 and 157. -/
theorem C9_bitrate_antitone_witness : (157 : ℤ) ≤ 314 :=
  C9_bitrate_antitone 5 10 (by norm_num) (by norm_num) 1920 1080
    512 288 314 512 288 157 calc_eval_5s calc_eval_10s

/-- C10: with positive width and height, a positive duration makes
`calculate_target_details` total (no error), while a zero duration hits the
unguarded division and propagates a `ZeroDivisionError`-style arithmetic
fault rather than an analysis error. -/
theorem C10_duration_guard (d : ℚ) (w h : ℤ) (hw : 0 < w) (hh : 0 < h) :
    (0 < d → ∃ nw nh br, calculate_target_details d w h none = Except.ok (nw, nh, br)) ∧
    calculate_target_details 0 w h none = Except.error PyError.zeroDivision := by
  constructor
  · intro hd
    have heval := calculate_eval_pos d w h hd.ne' hw.ne' hh.ne'
    by_cases hwh : w > h
    · rw [if_pos hwh] at heval
      exact ⟨_, _, _, heval⟩
    · rw [if_neg hwh] at heval
      exact ⟨_, _, _, heval⟩
  · unfold calculate_target_details mkTargetResult
    split
    · simp [hw.ne']
    · simp [hh.ne']

/-- Witness for C10 at duration 5 s resp. 0 s, dimensions 1920×1080. -/
theorem C10_duration_guard_witness :
    ((0 : ℚ) < 5 → ∃ nw nh br,
        calculate_target_details 5 1920 1080 none = Except.ok (nw, nh, br)) ∧
    calculate_target_details 0 1920 1080 none = Except.error PyError.zeroDivision :=
  C10_duration_guard 5 1920 1080 (by norm_num) (by norm_num)

/-- C1 counterexample: with initial bitrate 36 and persistently oversize
results, the loop's bitrate at the third attempt (after two reductions) is
`int(int(36·0.80)·0.80) = 22`, while the claimed closed form
`floor(36 · 0.80²)` clamped to the floor gives 23. -/
theorem C1_counterexample_iterated_floor :
    (fit_loop (fun _ => 300) 36).map (fun r => r.bitrateKbps) = [36, 28, 22] ∧
    specReducedBitrate 36 2 = 23 ∧ (22 : ℤ) ≠ 23 := by
  have hr1 : reduce_bitrate 36 = 28 := by
    unfold reduce_bitrate pyInt
    norm_num [Int.floor_eq_iff]
  have hr2 : reduce_bitrate 28 = 22 := by
    unfold reduce_bitrate pyInt
    norm_num [Int.floor_eq_iff]
  refine ⟨?_, ?_, by norm_num⟩
  · rw [fit_loop_eval]
    rw [if_neg (by norm_num [MAX_SIZE_KB]), if_neg (by norm_num [MAX_SIZE_KB])]
    rw [hr1, hr2]
    simp
  · unfold specReducedBitrate
    have h23 : ⌊((36 : ℤ) : ℚ) * (0.80 : ℚ) ^ 2⌋ = 23 := by
      norm_num [Int.floor_eq_iff]
    rw [h23]
    omega

/-- C1 amended: after `k` consecutive oversize results the loop's current
bitrate is the `k`-fold iterate of the per-step reduction
`b ↦ max 10 (int(b·0.80))`; the claimed closed form
`floor(B·0.80^k)` clamped to the floor agrees with it for `k = 0` and
`k = 1` (but not in general for `k = 2`, where the floor is iterated). -/
theorem C1_amended_reduction_law (sizes : ℕ → ℚ) (B : ℤ) (hB : 10 ≤ B) (k : ℕ)
    (hk : k < 3) (hover : ∀ j, j < k → MAX_SIZE_KB < sizes j) :
    ∃ r, (fit_loop sizes B)[k]? = some r ∧
      r.bitrateKbps = reduce_bitrate^[k] B ∧
      (k ≤ 1 → r.bitrateKbps = specReducedBitrate B k) := by
  have hB0 : (0 : ℤ) ≤ B := by omega
  have hspec0 : B = specReducedBitrate B 0 := by
    unfold specReducedBitrate
    rw [pow_zero, mul_one, Int.floor_intCast]
    exact (max_eq_right hB).symm
  have hspec1 : reduce_bitrate B = specReducedBitrate B 1 := by
    rw [reduce_bitrate_eq_max B hB0]
    unfold specReducedBitrate
    rw [pow_one]
  rw [fit_loop_eval]
  interval_cases k
  · split
    · exact ⟨_, rfl, rfl, fun _ => hspec0⟩
    · split
      · exact ⟨_, rfl, rfl, fun _ => hspec0⟩
      · exact ⟨_, rfl, rfl, fun _ => hspec0⟩
  · have h0 := not_le.mpr (hover 0 (by norm_num))
    rw [if_neg h0]
    split
    · exact ⟨_, rfl, rfl, fun _ => hspec1⟩
    · exact ⟨_, rfl, rfl, fun _ => hspec1⟩
  · have h0 := not_le.mpr (hover 0 (by norm_num))
    have h1 := not_le.mpr (hover 1 (by norm_num))
    rw [if_neg h0, if_neg h1]
    exact ⟨_, rfl, rfl, fun hcon => absurd hcon (by norm_num)⟩

/-- Witness for C1 amended: scripted oversize results, initial bitrate 36,
two reductions. -/
theorem C1_amended_reduction_law_witness :
    ∃ r, (fit_loop (fun _ => 300) 36)[2]? = some r ∧
      r.bitrateKbps = reduce_bitrate^[2] 36 ∧
      (2 ≤ 1 → r.bitrateKbps = specReducedBitrate 36 2) :=
  C1_amended_reduction_law (fun _ => 300) 36 (by norm_num) 2 (by norm_num)
    (fun j _ => by norm_num [MAX_SIZE_KB])

/-- C2: the fit loop always performs between 1 and `maxAttempts = 3`
iterations, produces exactly one attempt result per iteration (numbered
`i+1` with the measured size of iteration `i`), every non-final iteration
was oversize (so it stops at the first fitting result with no further
iteration), and an early stop only happens on a fitting result. -/
theorem C2_loop_iteration_bounds (sizes : ℕ → ℚ) (B : ℤ) :
    1 ≤ (fit_loop sizes B).length ∧ (fit_loop sizes B).length ≤ 3 ∧
    (∀ i, i + 1 < (fit_loop sizes B).length → MAX_SIZE_KB < sizes i) ∧
    ((fit_loop sizes B).length < 3 →
      sizes ((fit_loop sizes B).length - 1) ≤ MAX_SIZE_KB) ∧
    (∀ i r, (fit_loop sizes B)[i]? = some r →
      r.attemptNumber = i + 1 ∧ r.outputSizeKB = sizes i) := by
  rw [fit_loop_eval]
  by_cases h0 : sizes 0 ≤ MAX_SIZE_KB
  · rw [if_pos h0]
    refine ⟨by norm_num, by norm_num, ?_, fun _ => by simpa using h0, ?_⟩
    · intro i hi
      simp at hi
    · intro i r hir
      rcases i with _ | i
      · simp at hir
        subst hir
        exact ⟨rfl, rfl⟩
      · simp at hir
  · rw [if_neg h0]
    by_cases h1 : sizes 1 ≤ MAX_SIZE_KB
    · rw [if_pos h1]
      refine ⟨by norm_num, by norm_num, ?_, fun _ => by simpa using h1, ?_⟩
      · intro i hi
        simp at hi
        have : i = 0 := by omega
        subst this
        exact not_le.mp h0
      · intro i r hir
        rcases i with _ | _ | i
        · simp at hir
          subst hir
          exact ⟨rfl, rfl⟩
        · simp at hir
          subst hir
          exact ⟨rfl, rfl⟩
        · simp at hir
    · rw [if_neg h1]
      refine ⟨by norm_num, by norm_num, ?_, fun hcon => by simp at hcon, ?_⟩
      · intro i hi
        simp at hi
        rcases i with _ | _ | i
        · exact not_le.mp h0
        · exact not_le.mp h1
        · omega
      · intro i r hir
        rcases i with _ | _ | _ | i
        · simp at hir
          subst hir
          exact ⟨rfl, rfl⟩
        · simp at hir
          subst hir
          exact ⟨rfl, rfl⟩
        · simp at hir
          subst hir
          exact ⟨rfl, rfl⟩
        · simp at hir

lemma calc_eval_1024x1 :
    calculate_target_details 1 1024 1 none = Except.ok (512, 0, 1572) := by
  rw [calculate_eval_pos 1 1024 1 (by norm_num) (by norm_num) (by norm_num)]
  rw [if_pos (by norm_num)]
  unfold bitrate_of pyInt evenize
  norm_num [MAX_SIZE_KB, SAFE_BITRATE_FACTOR, TARGET_DIMENSION, Int.floor_eq_iff]

/-- C5 counterexample: for the extreme aspect ratio 1024×1, the scaled
shorter edge rounds down to 0, so the output height is 0 — the output
dimensions are not always positive. -/
theorem C5_counterexample_degenerate_height :
    calculate_target_details 1 1024 1 none = Except.ok (512, 0, 1572) ∧
    ¬ ∀ nw nh br : ℤ, calculate_target_details 1 1024 1 none = Except.ok (nw, nh, br) →
        0 < nw ∧ 0 < nh := by
  refine ⟨calc_eval_1024x1, fun hall => ?_⟩
  have h := (hall 512 0 1572 calc_eval_1024x1).2
  norm_num at h

/-- C5 amended: the longer edge is scaled to exactly `TARGET_DIMENSION`
(with ties treated so that both edges become `TARGET_DIMENSION`), the
shorter edge is scaled proportionally and rounded down, odd results are
decremented by 1, and both outputs are always even, nonnegative (possibly
0 for extreme aspect ratios) and at most `TARGET_DIMENSION`. -/
theorem C5_amended_dimension_rules (w h : ℤ) (hw : 0 < w) (hh : 0 < h) (d : ℚ)
    (hd : 0 < d) :
    ∃ nw nh br, calculate_target_details d w h none = Except.ok (nw, nh, br) ∧
      nw % 2 = 0 ∧ nh % 2 = 0 ∧ 0 ≤ nw ∧ 0 ≤ nh ∧
      nw ≤ TARGET_DIMENSION ∧ nh ≤ TARGET_DIMENSION ∧
      (h ≤ w → nw = TARGET_DIMENSION) ∧ (w ≤ h → nh = TARGET_DIMENSION) ∧
      (w = h → nw = TARGET_DIMENSION ∧ nh = TARGET_DIMENSION) ∧
      (h < w → nh = evenize ⌊((TARGET_DIMENSION : ℚ) * (h : ℚ)) / (w : ℚ)⌋) ∧
      (w ≤ h → nw = evenize ⌊((TARGET_DIMENSION : ℚ) * (w : ℚ)) / (h : ℚ)⌋) := by
  have hT : (0 : ℤ) < TARGET_DIMENSION := by unfold TARGET_DIMENSION; norm_num
  have hTmod : TARGET_DIMENSION % 2 = 0 := by unfold TARGET_DIMENSION; norm_num
  have hTe : evenize TARGET_DIMENSION = TARGET_DIMENSION := by
    unfold evenize
    rw [if_neg (by omega)]
  have hTq : (0 : ℚ) < (TARGET_DIMENSION : ℚ) := by exact_mod_cast hT
  have hwq : (0 : ℚ) < (w : ℚ) := by exact_mod_cast hw
  have hhq : (0 : ℚ) < (h : ℚ) := by exact_mod_cast hh
  rw [calculate_eval_pos d w h hd.ne' hw.ne' hh.ne']
  by_cases hwh : w > h
  · rw [if_pos hwh]
    have harg : (0 : ℚ) ≤ ((TARGET_DIMENSION : ℚ) / (w : ℚ)) * (h : ℚ) := by positivity
    have hform : ((TARGET_DIMENSION : ℚ) / (w : ℚ)) * (h : ℚ)
        = ((TARGET_DIMENSION : ℚ) * (h : ℚ)) / (w : ℚ) := div_mul_eq_mul_div _ _ _
    have hple : ((TARGET_DIMENSION : ℚ) / (w : ℚ)) * (h : ℚ) ≤ (TARGET_DIMENSION : ℚ) := by
      rw [hform, div_le_iff₀ hwq]
      have hle : (h : ℚ) ≤ (w : ℚ) := by exact_mod_cast le_of_lt hwh
      nlinarith
    have hfl : ⌊((TARGET_DIMENSION : ℚ) / (w : ℚ)) * (h : ℚ)⌋ ≤ TARGET_DIMENSION := by
      calc ⌊((TARGET_DIMENSION : ℚ) / (w : ℚ)) * (h : ℚ)⌋
        ≤ ⌊(TARGET_DIMENSION : ℚ)⌋ := Int.floor_le_floor hple
      _ = TARGET_DIMENSION := Int.floor_intCast _
    refine ⟨_, _, _, rfl, hTmod, evenize_emod_two _, le_of_lt hT, ?_, le_refl _, ?_,
      fun _ => rfl, ?_, ?_, ?_, ?_⟩
    · rw [pyInt_of_nonneg harg]
      exact evenize_nonneg (Int.floor_nonneg.mpr harg)
    · rw [pyInt_of_nonneg harg]
      exact le_trans (evenize_le _) hfl
    · intro hle; exact absurd hle (by omega)
    · intro heq; exact absurd heq (by omega)
    · intro _
      rw [pyInt_of_nonneg harg, hform]
    · intro hle; exact absurd hle (by omega)
  · rw [if_neg hwh]
    have hwle : w ≤ h := not_lt.mp hwh
    have harg : (0 : ℚ) ≤ ((TARGET_DIMENSION : ℚ) / (h : ℚ)) * (w : ℚ) := by positivity
    have hform : ((TARGET_DIMENSION : ℚ) / (h : ℚ)) * (w : ℚ)
        = ((TARGET_DIMENSION : ℚ) * (w : ℚ)) / (h : ℚ) := div_mul_eq_mul_div _ _ _
    have hple : ((TARGET_DIMENSION : ℚ) / (h : ℚ)) * (w : ℚ) ≤ (TARGET_DIMENSION : ℚ) := by
      rw [hform, div_le_iff₀ hhq]
      have hle : (w : ℚ) ≤ (h : ℚ) := by exact_mod_cast hwle
      nlinarith
    have hfl : ⌊((TARGET_DIMENSION : ℚ) / (h : ℚ)) * (w : ℚ)⌋ ≤ TARGET_DIMENSION := by
      calc ⌊((TARGET_DIMENSION : ℚ) / (h : ℚ)) * (w : ℚ)⌋
        ≤ ⌊(TARGET_DIMENSION : ℚ)⌋ := Int.floor_le_floor hple
      _ = TARGET_DIMENSION := Int.floor_intCast _
    have hsq : w = h →
        evenize (pyInt (((TARGET_DIMENSION : ℚ) / (h : ℚ)) * (w : ℚ))) = TARGET_DIMENSION := by
      intro heq
      subst heq
      have hcancel : ((TARGET_DIMENSION : ℚ) / (w : ℚ)) * (w : ℚ) = (TARGET_DIMENSION : ℚ) :=
        div_mul_cancel₀ _ hwq.ne'
      rw [hcancel, pyInt_of_nonneg (le_of_lt hTq), Int.floor_intCast, hTe]
    refine ⟨_, _, _, rfl, evenize_emod_two _, hTmod, ?_, le_of_lt hT, ?_, le_refl _,
      ?_, fun _ => rfl, ?_, ?_, ?_⟩
    · rw [pyInt_of_nonneg harg]
      exact evenize_nonneg (Int.floor_nonneg.mpr harg)
    · rw [pyInt_of_nonneg harg]
      exact le_trans (evenize_le _) hfl
    · intro hle
      exact hsq (le_antisymm hwle hle)
    · intro heq
      exact ⟨hsq heq, rfl⟩
    · intro hlt; exact absurd hlt (by omega)
    · intro _
      rw [pyInt_of_nonneg harg, hform]

/-- Witness for C5 amended at the square input 1000×1000 (tie-break case),
duration 1 s. -/
theorem C5_amended_dimension_rules_witness :
    ∃ nw nh br, calculate_target_details 1 1000 1000 none = Except.ok (nw, nh, br) ∧
      nw % 2 = 0 ∧ nh % 2 = 0 ∧ 0 ≤ nw ∧ 0 ≤ nh ∧
      nw ≤ TARGET_DIMENSION ∧ nh ≤ TARGET_DIMENSION ∧
      ((1000 : ℤ) ≤ 1000 → nw = TARGET_DIMENSION) ∧
      ((1000 : ℤ) ≤ 1000 → nh = TARGET_DIMENSION) ∧
      ((1000 : ℤ) = 1000 → nw = TARGET_DIMENSION ∧ nh = TARGET_DIMENSION) ∧
      ((1000 : ℤ) < 1000 →
        nh = evenize ⌊((TARGET_DIMENSION : ℚ) * ((1000 : ℤ) : ℚ)) / ((1000 : ℤ) : ℚ)⌋) ∧
      ((1000 : ℤ) ≤ 1000 →
        nw = evenize ⌊((TARGET_DIMENSION : ℚ) * ((1000 : ℤ) : ℚ)) / ((1000 : ℤ) : ℚ)⌋) :=
  C5_amended_dimension_rules 1000 1000 (by norm_num) (by norm_num) 1 (by norm_num)

/-- C7 counterexample: a probe result whose video stream is present with
valid dimensions but whose duration is the non-positive value −3 is
accepted by `get_video_info`, and the whole run then proceeds to encoding
(the loop finishes) instead of aborting with an analysis error. -/
theorem C7_counterexample_nonpositive_duration :
    get_video_info ⟨some (-3), [⟨"video", some 10, some 10⟩]⟩ = some (-3, 10, 10) ∧
    main_model ⟨true, true, true, ⟨some (-3), [⟨"video", some 10, some 10⟩]⟩,
        fun _ => 100⟩ =
      RunOutcome.finished [⟨1, 10, 100, true⟩] := by
  have hg : get_video_info ⟨some (-3), [⟨"video", some 10, some 10⟩]⟩ =
      some (-3, 10, 10) := by
    unfold get_video_info
    simp [List.find?]
  have hbr : bitrate_of (-3) = 10 := by
    have hq : ¬ (0 : ℚ) ≤ MAX_SIZE_KB * 1024 * 8 * SAFE_BITRATE_FACTOR / (-3 : ℚ) / 1000 := by
      norm_num [MAX_SIZE_KB, SAFE_BITRATE_FACTOR]
    have hceil : ⌈MAX_SIZE_KB * 1024 * 8 * SAFE_BITRATE_FACTOR / (-3 : ℚ) / 1000⌉ = -524 := by
      rw [Int.ceil_eq_iff]
      norm_num [MAX_SIZE_KB, SAFE_BITRATE_FACTOR]
    unfold bitrate_of pyInt
    rw [if_neg hq, hceil]
    norm_num
  have hcalc : calculate_target_details (-3) 10 10 none = Except.ok (512, 512, 10) := by
    rw [calculate_eval_pos (-3) 10 10 (by norm_num) (by norm_num) (by norm_num)]
    rw [if_neg (by norm_num), hbr]
    unfold pyInt evenize
    norm_num [TARGET_DIMENSION, Int.floor_eq_iff]
  refine ⟨hg, ?_⟩
  have hb : ¬ (true = false) := by decide
  unfold main_model compress_video
  dsimp only
  rw [hg]
  dsimp only
  rw [if_neg hb, if_neg hb, if_neg hb, hcalc]
  dsimp only
  rw [fit_loop_eval, if_pos (by norm_num [MAX_SIZE_KB])]

/-- C7 amended: the prober aborts the run (`none`, i.e. print-and-exit)
exactly when no video stream is found or the video stream's width/height
keys are missing; a missing duration key silently defaults to 0 and
non-positive durations or dimensions are returned without any failure. -/
theorem C7_amended_prober_contract (data : ProbeData) :
    (data.streams.find? (fun s => s.codec_type == "video") = none →
      get_video_info data = none) ∧
    (∀ vs, data.streams.find? (fun s => s.codec_type == "video") = some vs →
      vs.width = none → get_video_info data = none) ∧
    (∀ vs, data.streams.find? (fun s => s.codec_type == "video") = some vs →
      vs.height = none → get_video_info data = none) ∧
    (∀ vs wv hv, data.streams.find? (fun s => s.codec_type == "video") = some vs →
      vs.width = some wv → vs.height = some hv →
      get_video_info data = some (data.duration.getD 0, wv, hv)) := by
  unfold get_video_info
  refine ⟨?_, ?_, ?_, ?_⟩
  · intro hf
    rw [hf]
  · intro vs hf hwnone
    rw [hf]
    dsimp only
    rw [hwnone]
  · intro vs hf hhnone
    rw [hf]
    dsimp only
    rw [hhnone]
    rcases vs.width with _ | wv <;> rfl
  · intro vs wv hv hf hwv hhv
    rw [hf]
    dsimp only
    rw [hwv, hhv]

/-- Witness for C7 amended: the probe data of the counterexample run. -/
theorem C7_amended_prober_contract_witness :
    get_video_info ⟨some (-3), [⟨"video", some 10, some 10⟩]⟩ =
      some ((Option.getD (some (-3)) 0 : ℚ), 10, 10) :=
  (C7_amended_prober_contract ⟨some (-3), [⟨"video", some 10, some 10⟩]⟩).2.2.2
    ⟨"video", some 10, some 10⟩ 10 10 (by simp [List.find?]) rfl rfl

/-- C8 counterexample: with ffmpeg present but the input file missing,
`main` prints a diagnostic and merely returns, so the process terminates
with the success status 0, not a failure status. -/
theorem C8_counterexample_missing_file_exit_zero :
    main_model ⟨true, true, false, ⟨some 5, [⟨"video", some 10, some 10⟩]⟩,
        fun _ => 100⟩ = RunOutcome.earlyReturn ∧
    exit_code RunOutcome.earlyReturn = 0 ∧ (0 : ℕ) ≠ 1 := by
  refine ⟨?_, rfl, by norm_num⟩
  have hb : ¬ (true = false) := by decide
  unfold main_model
  dsimp only
  rw [if_neg hb, if_pos rfl]

lemma finished_needs_fit_loop (e : Env) (rs : List AttemptResult)
    (hfin : main_model e = RunOutcome.finished rs) :
    ∃ br, rs = fit_loop e.sizes br := by
  unfold main_model compress_video at hfin
  repeat' split at hfin
  all_goals simp_all
  exact ⟨_, hfin.symm⟩

lemma fit_loop_exhausted_warning (sizes : ℕ → ℚ) (B : ℤ) (r : AttemptResult)
    (hlast : (fit_loop sizes B).getLast? = some r)
    (hover : MAX_SIZE_KB < r.outputSizeKB) :
    (fit_loop sizes B).any (fun a => a.attemptNumber == 3 && !a.succeeded) = true := by
  rw [fit_loop_eval] at hlast ⊢
  by_cases h0 : sizes 0 ≤ MAX_SIZE_KB
  · rw [if_pos h0] at hlast
    simp at hlast
    subst hlast
    exact absurd hover (not_lt.mpr h0)
  · rw [if_neg h0] at hlast ⊢
    by_cases h1 : sizes 1 ≤ MAX_SIZE_KB
    · rw [if_pos h1] at hlast
      simp at hlast
      subst hlast
      exact absurd hover (not_lt.mpr h1)
    · rw [if_neg h1] at hlast ⊢
      simp at hlast
      subst hlast
      simp only [AttemptResult.succeeded] at hover ⊢
      have hd2 : ¬ sizes 2 ≤ MAX_SIZE_KB := not_le.mpr hover
      simp [hd2]

/-- C8 amended: a missing ffmpeg (and an analysis failure, which exits
inside the prober) terminates with failure status 1, but a missing input
file or a missing ffprobe prints its diagnostic and returns, terminating
with success status 0; and whenever the fit loop runs to completion —
including when the final attempt is still oversized, in which case the
line-165 warning is printed — the process also exits with status 0. -/
theorem C8_amended_exit_status (e : Env) :
    (e.ffmpeg_found = false → exit_code (main_model e) = 1) ∧
    (e.ffmpeg_found = true → e.input_exists = false →
      exit_code (main_model e) = 0) ∧
    (e.ffmpeg_found = true → e.input_exists = true → e.ffprobe_found = false →
      exit_code (main_model e) = 0) ∧
    (∀ rs, main_model e = RunOutcome.finished rs → exit_code (main_model e) = 0) ∧
    (∀ rs r, main_model e = RunOutcome.finished rs → rs.getLast? = some r →
      MAX_SIZE_KB < r.outputSizeKB →
      exit_code (main_model e) = 0 ∧ oversize_warning (main_model e) = true) := by
  refine ⟨?_, ?_, ?_, ?_, ?_⟩
  · intro hm
    unfold main_model
    rw [if_pos hm]
    rfl
  · intro hm hi
    unfold main_model
    rw [if_neg (by simp [hm]), if_pos hi]
    rfl
  · intro hm hi hp
    unfold main_model compress_video
    rw [if_neg (by simp [hm]), if_neg (by simp [hi]), if_pos hp]
    rfl
  · intro rs hfin
    rw [hfin]
    rfl
  · intro rs r hfin hlast hover
    obtain ⟨br, hrs⟩ := finished_needs_fit_loop e rs hfin
    subst hrs
    refine ⟨by rw [hfin]; rfl, ?_⟩
    rw [hfin]
    unfold oversize_warning
    exact fit_loop_exhausted_warning e.sizes br r hlast hover
